import Mathlib

/-!
Verification development for the MPT (Minimum Preservation Tool) repository.

This file gives a shallow embedding, in Lean, of the checksum / staging code
of the repository (src/mpt/staging.py, src/mpt/filemanager.py,
src/mpt/hashing.py, src/mpt/results.py, src/mpt/codes.py, src/mpt/defaults.py)
and proves or refutes a fixed list of claims about it.

Modelling conventions:
  * The filesystem is a finite map from path strings to byte lists, together
    with a set of "unopenable" paths (paths on which `open` raises
    `FileNotFoundError`, e.g. because their directory cannot be created).
    Directories themselves are not modelled; `os.makedirs` / `os.removedirs`
    calls, whose errors the source suppresses, are no-ops here.
  * Digest computation (hashlib / xxhash, external libraries) is a parameter
    `H : String → List Nat → String`: a pure function of the algorithm name
    and the bytes, exactly as the spec's invariant states.  Incremental
    hashing of blocks is modelled by hashing the concatenation of the blocks.
  * Python exceptions are values of `PyExc`; a function that can raise
    returns `Except`.  An escaping exception carries the program state at the
    point of the raise, since in Python the world is not rolled back.
  * Python `str` is modelled by `String` (or `List Char` where the source
    works on raw bytes through `mmap`); the path separator `os.sep` is "/".
-/

/-! ### Python exceptions -/

inductive PyExc where
  | fileNotFoundError
  | fileExistsError
  | valueError
  | unboundLocalError
  | typeError
  | osError
deriving DecidableEq, Repr

/-! ### Filesystem model -/

abbrev FPath := String
abbrev Bytes := List Nat

/-- Contents as an association list from paths to byte strings, plus the set
of paths on which `open` fails with `FileNotFoundError` (the parent directory
cannot be created).  An `unopenable` path never has contents. -/
structure FS where
  files : List (FPath × Bytes)
  unopenable : List FPath
deriving DecidableEq, Repr

def lookupFile (p : FPath) : List (FPath × Bytes) → Option Bytes
  | [] => none
  | (q, b) :: t => if q = p then some b else lookupFile p t

def removeFile (p : FPath) : List (FPath × Bytes) → List (FPath × Bytes)
  | [] => []
  | (q, b) :: t => if q = p then removeFile p t else (q, b) :: removeFile p t

def FS.read (fs : FS) (p : FPath) : Option Bytes := lookupFile p fs.files

/-- Model of `os.path.exists`. -/
def osPathExists (fs : FS) (p : FPath) : Bool := (fs.read p).isSome

def FS.write (fs : FS) (p : FPath) (b : Bytes) : FS :=
  ⟨(p, b) :: removeFile p fs.files, fs.unopenable⟩

def FS.erase (fs : FS) (p : FPath) : FS :=
  ⟨removeFile p fs.files, fs.unopenable⟩

/-- Appending to an open handle / appending via mode `'a+'` (which creates the
file when it is absent). -/
def FS.append (fs : FS) (p : FPath) (b : Bytes) : FS :=
  fs.write p (((fs.read p).getD []) ++ b)

theorem lookupFile_removeFile (p q : FPath) (l : List (FPath × Bytes)) :
    lookupFile q (removeFile p l) = if q = p then none else lookupFile q l := by
  induction l with
  | nil => by_cases h : q = p <;> simp [lookupFile, removeFile, h]
  | cons hd tl ih =>
    obtain ⟨r, b⟩ := hd
    by_cases hrp : r = p <;> by_cases hrq : r = q <;> by_cases hqp : q = p <;>
      simp_all [removeFile, lookupFile]

theorem FS.read_write (fs : FS) (p q : FPath) (b : Bytes) :
    (fs.write p b).read q = if q = p then some b else fs.read q := by
  by_cases h : q = p
  · simp [FS.write, FS.read, lookupFile, h]
  · simp [FS.write, FS.read, lookupFile, h, lookupFile_removeFile]
    exact fun hc => absurd hc.symm h

theorem FS.read_erase (fs : FS) (p q : FPath) :
    (fs.erase p).read q = if q = p then none else fs.read q := by
  simp [FS.erase, FS.read, lookupFile_removeFile]

theorem osPathExists_write (fs : FS) (p q : FPath) (b : Bytes) :
    osPathExists (fs.write p b) q = (decide (q = p) || osPathExists fs q) := by
  by_cases h : q = p <;> simp [osPathExists, FS.read_write, h]

theorem osPathExists_append (fs : FS) (p q : FPath) (b : Bytes) :
    osPathExists (fs.append p b) q = (decide (q = p) || osPathExists fs q) := by
  simp [FS.append, osPathExists_write]

theorem FS.unopenable_write (fs : FS) (p : FPath) (b : Bytes) :
    (fs.write p b).unopenable = fs.unopenable := rfl

/-! ### String helpers used by the embedding -/

def encodeStr (s : String) : Bytes := s.toList.map Char.toNat

def decodeStr (b : Bytes) : String := String.mk (b.map Char.ofNat)

/-- List-of-chars version of `str.rstrip('\r\n')`.  (The built-in
position-based `String` functions are avoided throughout: the `List Char`
implementations reduce inside the kernel, keeping every definition
evaluable on concrete inputs.) -/
def rstripCRLFL (l : List Char) : List Char :=
  (l.reverse.dropWhile (fun c => decide (c = '\r' ∨ c = '\n'))).reverse

/-- Model of `str.rstrip('\r\n')`. -/
def rstripCRLF (s : String) : String := String.mk (rstripCRLFL s.toList)

/-- If `pre` is a prefix of `s`, drop it; used to model `os.path.relpath`
in the only form the code relies on (the path lies under the root). -/
def stripPrefixStr (pre s : String) : String :=
  if pre.toList.isPrefixOf s.toList then String.mk (s.toList.drop pre.toList.length)
  else s

/-- Model of `os.path.relpath(p, root)` for `p` under `root`. -/
def relpathStr (p root : String) : String := stripPrefixStr (root ++ "/") p

/-- Model of `os.path.basename`: the component after the last separator. -/
def basenameStr (p : String) : String :=
  String.mk ((p.toList.reverse.takeWhile (fun c => !(c == '/'))).reverse)

/-! ### Hash algorithm registries (src/mpt/hashing.py, line 7)

The set `hashlib.algorithms_guaranteed` is fixed by the Python
documentation and `xxhash.algorithms_available` by the xxhash package.
What `hashlib.new` accepts at runtime is `hashlib.algorithms_available`, a
platform-dependent superset of the guaranteed set that never contains the
xxhash names; it is kept as a parameter `hlAvail` below. -/

def hashlib_algorithms_guaranteed : List String :=
  ["md5", "sha1", "sha224", "sha256", "sha384", "sha512",
   "blake2b", "blake2s", "sha3_224", "sha3_256", "sha3_384", "sha3_512",
   "shake_128", "shake_256"]

def xxhash_algorithms_available : List String :=
  ["xxh32", "xxh64", "xxh128", "xxh3_64", "xxh3_128"]

/-- Model of `algorithms_supported` (a set union; membership is what the
code queries). -/
def algorithms_supported : List String :=
  hashlib_algorithms_guaranteed ++ xxhash_algorithms_available

/-- Digest computation: a pure function of algorithm name and content bytes. -/
abbrev HashFn := String → Bytes → String

def hash_file_default_algorithm : String := "sha256"

/-- Model of `hash_file` from src/mpt/hashing.py.  Reading in blocks and
feeding an incremental hasher is digest-equivalent to hashing the whole
content; the returned size is the byte count.  Opening a missing file
raises.  In the source the `algorithm` parameter defaults to `"sha256"`;
call sites that omit the argument must pass `hash_file_default_algorithm`. -/
def hash_file (H : HashFn) (fs : FS) (in_path : FPath) (algorithm : String) :
    Except PyExc (String × Nat) :=
  match fs.read in_path with
  | none => .error .fileNotFoundError
  | some content => .ok (H algorithm content, content.length)

/-! ### Defaults (src/mpt/defaults.py) -/

def default_algorithm : String := "sha256"

def default_blocksize : Nat := 1024 * 2048

def max_failures : Nat := 10

/-! ### Staging status codes (src/mpt/codes.py) -/

inductive StagingStatus where
  | READY
  | STAGED
  | DUPLICATE_FILE
  | DUPLICATE_CHECKSUM
  | DATA_WRITE_FAILURE
  | CHECKSUM_WRITE_FAILURE
  | CHECKSUM_MISMATCH
  | COULD_NOT_REMOVE
  | IN_PROGRESS
  | UNSTAGED
deriving DecidableEq, Repr

/-! ### The retry loop of FileStager._open_file (src/mpt/staging.py 157-166) -/

/-- Outcome of one iteration of the `for n in range(1, 5)` body of
`FileStager._open_file`: either the body executes a `return`, or control
reaches the next iteration. -/
inductive RetryOut (α : Type) where
  | ret (r : Except PyExc α)
  | next

/-- One iteration of the retry loop of `FileStager._open_file`, given the
outcome of the `open` call:

    try:     handler = open(...)
    except FileNotFoundError:  continue
    finally: return handler

The `finally` clause runs before an `except`-raised `continue` or a
propagating exception takes effect, and its `return` replaces that pending
control flow.  When `open` raised, `handler` was never assigned, so
evaluating `handler` in the `return` raises `UnboundLocalError`, which
escapes in place of the original exception. -/
def open_retry_body {α : Type} (attempt : Except PyExc α) : RetryOut α :=
  match attempt with
  | .ok h => .ret (.ok h)
  | .error _ => .ret (.error .unboundLocalError)

def run_retry_loop {α : Type} (attempts : Nat → Except PyExc α) :
    List Nat → Option (Except PyExc α)
  | [] => none
  | n :: ns =>
    match open_retry_body (attempts n) with
    | .ret r => some r
    | .next => run_retry_loop attempts ns

/-- Model of the loop `for n in range(1, 5)` of `FileStager._open_file`.
A `none` result means the loop fell through and the function returned
`None`. -/
def open_file_loop {α : Type} (attempts : Nat → Except PyExc α) :
    Option (Except PyExc α) :=
  run_retry_loop attempts [1, 2, 3, 4]

/-- One `open(path, 'xb'/'x')` attempt (exclusive creation) on the model:
raises `FileNotFoundError` when the path is unopenable (its directory
cannot be created, the case the retry loop was written for), raises
`FileExistsError` when the file already exists; otherwise creates an empty
file and returns a handle (modelled by the path written to). -/
def pyOpenCreate (fs : FS) (p : FPath) : Except PyExc (FPath × FS) :=
  if p ∈ fs.unopenable then .error .fileNotFoundError
  else if osPathExists fs p then .error .fileExistsError
  else .ok (p, fs.write p [])

/-- One `open(path, 'ab+'/'a+')` attempt (append, `can_exist=True`). -/
def pyOpenAppend (fs : FS) (p : FPath) : Except PyExc (FPath × FS) :=
  if p ∈ fs.unopenable then .error .fileNotFoundError
  else .ok (p, if osPathExists fs p then fs else fs.write p [])

/-- Model of `FileStager._open_file` with `can_exist=False`; `os.makedirs`
is a no-op here (directories are not modelled). -/
def open_file (fs : FS) (p : FPath) : Option (Except PyExc (FPath × FS)) :=
  open_file_loop (fun _ => pyOpenCreate fs p)

/-- Model of `FileStager._open_file` with `can_exist=True`. -/
def open_file_can_exist (fs : FS) (p : FPath) : Option (Except PyExc (FPath × FS)) :=
  open_file_loop (fun _ => pyOpenAppend fs p)

/-! ### FileStager state (src/mpt/staging.py) -/

/-- One entry of the destination dictionaries built by
`_get_files_to_stage`. -/
structure DestSpec where
  root_path : FPath
  destination : FPath
  checksum : Option FPath
  manifest : Option FPath
deriving DecidableEq, Repr

/-- Per-destination state, `FileStager.destinations[root]`.  `substatus`
stores the exception (the source stores `str(e)`); `handler` is an open
handle, modelled by the path it writes to. -/
structure Dest where
  data_file : FPath
  checksum_file : Option FPath
  checksum_value : Option String
  manifest_file : Option FPath
  status : StagingStatus
  substatus : Option PyExc
  handler : Option FPath
deriving DecidableEq, Repr

structure FileStager where
  source : FPath
  checksum : Option String
  algorithm : String
  blocksize : Nat
  remove_original : Bool
  destinations : List (FPath × Dest)
deriving DecidableEq, Repr

/-- Model of `FileStager.__init__` / `FileStager.next_file`. -/
def FileStager.next_file (algorithm : String) (blocksize : Nat)
    (remove_original : Bool) (source : FPath) (destinations : List DestSpec) :
    FileStager :=
  { source := source
    checksum := none
    algorithm := algorithm
    blocksize := blocksize
    remove_original := remove_original
    destinations := destinations.map (fun f =>
      (f.root_path,
        { data_file := f.destination
          checksum_file := f.checksum
          checksum_value := none
          manifest_file := f.manifest
          status := .READY
          substatus := none
          handler := none })) }

def FileStager.aborted (st : FileStager) : Bool :=
  st.destinations.any (fun e => decide (e.2.status ∈ [StagingStatus.COULD_NOT_REMOVE]))

def FileStager.completed (st : FileStager) : Bool :=
  st.destinations.all (fun e => decide (e.2.status = StagingStatus.STAGED))

def FileStager.failed (st : FileStager) : Bool :=
  st.destinations.any (fun e => decide (e.2.status ∉
    [StagingStatus.STAGED, StagingStatus.READY, StagingStatus.IN_PROGRESS]))

def FileStager.ready (st : FileStager) : Bool :=
  st.destinations.all (fun e => decide (e.2.status = StagingStatus.READY))

/-- Model of `FileStager.status`. -/
def FileStager.statusList (st : FileStager) : List StagingStatus :=
  st.destinations.map (fun e => e.2.status)

/-! ### Open phase -/

/-- Loop body of `FileStager.open_destination_files` for one destination.
(`os.path.exists(None)` would raise `TypeError` in Python; the staging
pipeline always supplies a checksum path - see `stage_files` - and the
model treats an absent checksum path as non-existing.) -/
def open_one_dest (fs : FS) (d : Dest) : Dest × FS :=
  if osPathExists fs d.data_file then
    ({ d with status := .DUPLICATE_FILE }, fs)
  else if (d.checksum_file.map (osPathExists fs)).getD false then
    ({ d with status := .DUPLICATE_CHECKSUM }, fs)
  else
    match open_file fs d.data_file with
    | some (.ok (h, fs')) => ({ d with handler := some h, status := .READY }, fs')
    | some (.error e) =>
      ({ d with status := .DATA_WRITE_FAILURE, substatus := some e }, fs)
    | none => ({ d with handler := none, status := .READY }, fs)

def open_dests_loop (fs : FS) : List (FPath × Dest) → List (FPath × Dest) × FS
  | [] => ([], fs)
  | (k, d) :: rest =>
    let (d', fs') := open_one_dest fs d
    let (rest', fs'') := open_dests_loop fs' rest
    ((k, d') :: rest', fs'')

/-- Model of `FileStager.open_destination_files` (the state change; the
boolean the source returns is `ready` of the new state). -/
def FileStager.open_destination_files (st : FileStager) (fs : FS) :
    FileStager × FS :=
  let r := open_dests_loop fs st.destinations
  ({ st with destinations := r.1 }, r.2)

/-! ### Write phase -/

/-- Fuel-indexed block splitting; `chunks` supplies the fuel. -/
def chunksGo (n : Nat) : Nat → Bytes → List Bytes
  | _, [] => []
  | 0, _ => []
  | fuel + 1, b => if n = 0 then [] else b.take n :: chunksGo n fuel (b.drop n)

/-- Blocks produced by `iter(lambda: in_file.read(self.blocksize), b'')`.
(With blocksize 0, `read(0)` returns `b''` at once and the iteration is
empty, which the model reproduces.) -/
def chunks (n : Nat) (b : Bytes) : List Bytes := chunksGo n b.length b

/-- Writing one block to every destination handle (the inner loop of
`write_files`).  Handle writes do not fail in this model, so the
`DATA_WRITE_FAILURE` branch of the inner `try` is never taken and the block
loop runs to completion.  (An unopened handle - `None` - would raise
`AttributeError` in Python; `write_files` is only reached when every
destination is READY with an open handle.) -/
def write_block (dests : List (FPath × Dest)) (fs : FS) (block : Bytes) : FS :=
  dests.foldl (fun f e =>
    match e.2.handler with
    | some p => f.append p block
    | none => f) fs

/-- Model of `FileStager.close_destination_files`. -/
def FileStager.close_destination_files (st : FileStager) : FileStager :=
  { st with destinations :=
      st.destinations.map (fun e => (e.1, { e.2 with handler := none })) }

def setAllStatus (st : FileStager) (s : StagingStatus) : FileStager :=
  { st with destinations :=
      st.destinations.map (fun e => (e.1, { e.2 with status := s })) }

/-- Model of `FileStager.write_files`.  `hashlib.new(self.algorithm)` (line
200) raises `ValueError` when the algorithm is unknown to hashlib
(`hlAvail` models `hashlib.algorithms_available`); that happens before the
statuses are set to IN_PROGRESS, before the source is opened and before any
block is written.  On success the source digest is the hash of the
concatenation of the blocks fed to the incremental hasher. -/
def FileStager.write_files (hlAvail : List String) (H : HashFn)
    (st : FileStager) (fs : FS) :
    Except (PyExc × FileStager × FS) (FileStager × FS) :=
  if st.algorithm ∈ hlAvail then
    let st1 := setAllStatus st .IN_PROGRESS
    match fs.read st1.source with
    | none => .error (.fileNotFoundError, st1, fs)
    | some content =>
      let bs := chunks st1.blocksize content
      let fs1 := bs.foldl (fun f b => write_block st1.destinations f b) fs
      let st2 := { st1 with checksum := some (H st1.algorithm bs.flatten) }
      .ok (st2.close_destination_files, fs1)
  else .error (.valueError, st, fs)

/-! ### Verify phase -/

/-- Model of `FileStager.write_checksum`.  `destination_key` is the root
path; the line written is `"{0} *\\{1}\n".format(cs_value, data_path)` (one
literal backslash).  With `manifest_file=False` the target is opened with
`can_exist=False`: if the sidecar already exists the open raises
(`UnboundLocalError`, see `open_retry_body`), caught here as
CHECKSUM_WRITE_FAILURE.  (Were `_open_file` to return `None`, the `with`
statement would raise `AttributeError`, equally caught.) -/
def write_checksum (destination_key : FPath) (d : Dest) (manifest_file : Bool)
    (fs : FS) : Dest × FS :=
  let out_file : Option FPath :=
    if manifest_file then d.manifest_file else d.checksum_file
  let data_path : String :=
    if manifest_file then relpathStr d.data_file destination_key
    else basenameStr d.data_file
  let line : String := d.checksum_value.getD "" ++ " *\\" ++ data_path ++ "\n"
  match out_file with
  | none => (d, fs)
  | some out =>
    match (if manifest_file then open_file_can_exist fs out else open_file fs out) with
    | some (.ok (p, fs')) => (d, fs'.append p (encodeStr line))
    | some (.error e) =>
      ({ d with status := .CHECKSUM_WRITE_FAILURE, substatus := some e }, fs)
    | none =>
      ({ d with status := .CHECKSUM_WRITE_FAILURE, substatus := some .typeError }, fs)

/-- Per-destination body of the loop in `FileStager.check_files`.  NOTE:
the source (staging.py line 237) calls `hash_file(v["data_file"])` without
an `algorithm` argument, so the re-read digest always uses the default
`"sha256"`, regardless of `self.algorithm`. -/
def check_one_dest (H : HashFn) (cs : String) (k : FPath) (d : Dest) (fs : FS) :
    Except PyExc (Dest × FS) :=
  match hash_file H fs d.data_file hash_file_default_algorithm with
  | .error e => .error e
  | .ok (next_cs, _) =>
    let d := { d with checksum_value := some next_cs }
    if next_cs ≠ cs then .ok ({ d with status := .CHECKSUM_MISMATCH }, fs)
    else
      if d.checksum_file = none ∧ d.manifest_file = none then
        .ok ({ d with status := .STAGED }, fs)
      else
        let r1 := if d.checksum_file.isSome then write_checksum k d false fs else (d, fs)
        let r2 := if r1.1.manifest_file.isSome then write_checksum k r1.1 true r1.2 else r1
        let d' := if r2.1.status = .IN_PROGRESS then { r2.1 with status := .STAGED } else r2.1
        .ok (d', r2.2)

def check_dests_loop (H : HashFn) (cs : String) (fs : FS) :
    List (FPath × Dest) →
    Except (PyExc × List (FPath × Dest) × FS) (List (FPath × Dest) × FS)
  | [] => .ok ([], fs)
  | (k, d) :: rest =>
    match check_one_dest H cs k d fs with
    | .error e => .error (e, (k, d) :: rest, fs)
    | .ok (d', fs') =>
      match check_dests_loop H cs fs' rest with
      | .error (e, rest', fs'') => .error (e, (k, d') :: rest', fs'')
      | .ok (rest', fs'') => .ok ((k, d') :: rest', fs'')

/-- Model of `FileStager.check_files`.  An exception from `hash_file` (the
destination file unreadable) is not caught in the source and propagates.
On the success path, if all destinations are STAGED and `remove_original`
is set, the source file is deleted (a failure there is only printed). -/
def FileStager.check_files (H : HashFn) (st : FileStager) (fs : FS) :
    Except (PyExc × FileStager × FS) (FileStager × FS) :=
  match st.checksum with
  | none => .ok (st, fs)
  | some cs =>
    match check_dests_loop H cs fs st.destinations with
    | .error (e, ds, fs') => .error (e, { st with destinations := ds }, fs')
    | .ok (ds, fs') =>
      let st' := { st with destinations := ds }
      let fs'' :=
        if st'.completed && st'.remove_original then
          if osPathExists fs' st'.source then fs'.erase st'.source else fs'
        else fs'
      .ok (st', fs'')

/-! ### Rollback -/

/-- Per-destination body of `FileStager.undo_staging`.  Both `os.remove`
calls sit in ONE `try` block: if removing the data file raises,
COULD_NOT_REMOVE is set with nothing deleted; if the data file is deleted
but removing the checksum file then raises (absent sidecar:
`FileNotFoundError`; `None` sidecar path: `TypeError`), COULD_NOT_REMOVE
is still set - with the data file already gone.  Only when both removals
succeed is a READY/IN_PROGRESS/STAGED status demoted to UNSTAGED.  The
`os.removedirs` pruning (its errors swallowed in the source) has no effect
in this model. -/
def undo_one_dest (fs : FS) (d : Dest) : Dest × FS :=
  let d := { d with handler := none }
  if osPathExists fs d.data_file then
    let fs1 := fs.erase d.data_file
    match d.checksum_file with
    | none => ({ d with status := .COULD_NOT_REMOVE, substatus := some .typeError }, fs1)
    | some cf =>
      if osPathExists fs1 cf then
        let fs2 := fs1.erase cf
        if d.status ∈ [StagingStatus.READY, .IN_PROGRESS, .STAGED] then
          ({ d with status := .UNSTAGED }, fs2)
        else (d, fs2)
      else
        ({ d with status := .COULD_NOT_REMOVE, substatus := some .fileNotFoundError }, fs1)
  else ({ d with status := .COULD_NOT_REMOVE, substatus := some .fileNotFoundError }, fs)

def undo_dests_loop (fs : FS) : List (FPath × Dest) → List (FPath × Dest) × FS
  | [] => ([], fs)
  | (k, d) :: rest =>
    let (d', fs') := undo_one_dest fs d
    let (rest', fs'') := undo_dests_loop fs' rest
    ((k, d') :: rest', fs'')

/-- Model of `FileStager.undo_staging`. -/
def FileStager.undo_staging (st : FileStager) (fs : FS) : FileStager × FS :=
  let r := undo_dests_loop fs st.destinations
  ({ st with destinations := r.1 }, r.2)

/-! ### start_copy and _stage_file -/

/-- Model of `FileStager.start_copy`. -/
def FileStager.start_copy (hlAvail : List String) (H : HashFn)
    (st : FileStager) (fs : FS) :
    Except (PyExc × FileStager × FS) (FileStager × FS) :=
  let o := st.open_destination_files fs
  match (if o.1.ready then o.1.write_files hlAvail H o.2 else .ok o) with
  | .error e => .error e
  | .ok w =>
    match (if !w.1.failed then w.1.check_files H w.2 else .ok w) with
    | .error e => .error e
    | .ok c => .ok (if c.1.failed then c.1.undo_staging c.2 else c)

/-- Summary classification strings of `_stage_file`. -/
inductive TaskStatus where
  | staged
  | aborted
  | failed
  | unknown
deriving DecidableEq, Repr

def task_status (st : FileStager) : TaskStatus :=
  if st.completed then .staged
  else if st.aborted then .aborted
  else if st.failed then .failed
  else .unknown

/-- Model of `_stage_file`: builds the `FileStager` (the source constructor
call omits blocksize and remove_original, so the defaults apply) and runs
`start_copy`; an escaping exception means the worker records no
per-destination outcome for the task. -/
def stage_file (hlAvail : List String) (H : HashFn) (source : FPath)
    (destinations : List DestSpec) (algorithm : String) (fs : FS) :
    Except (PyExc × FileStager × FS)
      ((FPath × TaskStatus × List (FPath × Dest)) × FS) :=
  let st := FileStager.next_file algorithm default_blocksize true source destinations
  match st.start_copy hlAvail H fs with
  | .error e => .error e
  | .ok (st', fs') => .ok ((source, task_status st', st'.destinations), fs')

/-! ### Concrete instances used to evaluate the model -/

/-- Concrete executable digest function used to instantiate `H` in closed
evaluations: tags the digest with the algorithm name, so digests computed
under different algorithms are never equal (as with real digests, whose hex
lengths already differ between, say, md5 and sha256). -/
def demoHash (alg : String) (b : Bytes) : String :=
  alg ++ "-" ++ String.mk (b.map (fun n => Char.ofNat (65 + n % 26)))

/-- Final per-destination statuses of a `start_copy` run, when no exception
escaped. -/
def finalStatuses (r : Except (PyExc × FileStager × FS) (FileStager × FS)) :
    Option (List StagingStatus) :=
  r.toOption.map (fun x => x.1.statusList)

/-- Contents of a path after a `start_copy` run, when no exception escaped. -/
def finalRead (r : Except (PyExc × FileStager × FS) (FileStager × FS))
    (p : FPath) : Option (Option Bytes) :=
  r.toOption.map (fun x => x.2.read p)

/-! ### Claim C1 -/

/-- Staging task for C1: the destination data file `t/a` already exists
(with content `[9]`) before the task starts; the sidecar `c/a.sha256` does
not. -/
def fsC1 : FS := ⟨[("t/a", [9]), ("src", [1, 2])], []⟩

def stC1 : FileStager :=
  FileStager.next_file "sha256" 2 true "src" [⟨"t", "t/a", some "c/a.sha256", none⟩]

/-- Claim C1, evaluated at the failing input: with a destination whose data
file pre-exists, the Open phase marks it DUPLICATE_FILE and `start_copy`
does NOT abandon the task without side effects: `undo_staging` runs, its
single `try` block deletes the PRE-EXISTING data file `t/a` (it was never
copied by this task), and the subsequent `os.remove` of the absent sidecar
raises, leaving the destination in COULD_NOT_REMOVE.  Afterwards the
pre-existing data file no longer exists, refuting "a pre-existing data file
at a DUPLICATE_FILE destination still exists". -/
theorem claim_C1 :
    (stC1.open_destination_files fsC1).1.statusList = [StagingStatus.DUPLICATE_FILE]
    ∧ (stC1.open_destination_files fsC1).2 = fsC1
    ∧ finalStatuses (stC1.start_copy hashlib_algorithms_guaranteed demoHash fsC1)
        = some [StagingStatus.COULD_NOT_REMOVE]
    ∧ finalRead (stC1.start_copy hashlib_algorithms_guaranteed demoHash fsC1) "t/a"
        = some none := by
  refine ⟨by decide, by decide, by decide, by decide⟩

/-! ### Claim C2 -/

def fsC2 : FS := ⟨[("src", [1, 2])], []⟩

def destSpecC2 : DestSpec := ⟨"t", "t/files/a", some "c/a.sha256", none⟩

def stC2md5 : FileStager := FileStager.next_file "md5" 2 true "src" [destSpecC2]

def stC2sha : FileStager := FileStager.next_file "sha256" 2 true "src" [destSpecC2]

/-- Claim C2, evaluated at the failing input (algorithm "md5", a supported
registry member): Open and Write succeed and the destination's written
bytes equal the source bytes, yet the Verify phase does NOT re-digest with
the same algorithm - `check_files` calls `hash_file(v["data_file"])`
without an algorithm argument, so the re-read digest uses the default
"sha256" while the source digest used "md5".  The comparison therefore
fails, the task is rolled back, and the destination ends COULD_NOT_REMOVE
instead of STAGED.  With algorithm "sha256" (where the wrong default
coincides with the configured algorithm) the same task ends STAGED. -/
theorem claim_C2 :
    ("md5" ∈ algorithms_supported ∧ demoHash "md5" [1, 2] ≠ demoHash "sha256" [1, 2])
    ∧ (stC2md5.start_copy hashlib_algorithms_guaranteed demoHash fsC2).toOption.map
        (fun x => x.1.checksum) = some (some (demoHash "md5" [1, 2]))
    ∧ (stC2md5.start_copy hashlib_algorithms_guaranteed demoHash fsC2).toOption.map
        (fun x => x.1.destinations.map (fun e => e.2.checksum_value))
        = some [some (demoHash "sha256" [1, 2])]
    ∧ finalStatuses (stC2md5.start_copy hashlib_algorithms_guaranteed demoHash fsC2)
        = some [StagingStatus.COULD_NOT_REMOVE]
    ∧ finalStatuses (stC2sha.start_copy hashlib_algorithms_guaranteed demoHash fsC2)
        = some [StagingStatus.STAGED] := by
  refine ⟨⟨by decide, by decide⟩, by decide, by decide, by decide, by decide⟩

/-! ### Claim C3 -/

def fsC3 : FS := ⟨[("s3", [3, 4, 5])], []⟩

def stC3 : FileStager :=
  FileStager.next_file "md5" 2 true "s3" [⟨"u", "u/files/b", some "v/b.md5", none⟩]

/-- Claim C3, evaluated at a failing input: a task in which the
destination's re-read digest (computed by `check_files` with the default
"sha256") differs from the source digest (computed with "md5").
`check_files` marks the destination CHECKSUM_MISMATCH and every destination
is rolled back - the staged data file is indeed deleted everywhere - but
the mismatching destination does NOT end in CHECKSUM_MISMATCH: inside
`undo_staging`, after the data file is removed, the `os.remove` of the
sidecar (which was never written, since the digest comparison failed)
raises `FileNotFoundError`, and the shared `except` clause overwrites the
status with COULD_NOT_REMOVE even though deletion of the staged file itself
succeeded. -/
theorem claim_C3 :
    (stC3.start_copy hashlib_algorithms_guaranteed demoHash fsC3).toOption.map
        (fun x => x.1.checksum) = some (some (demoHash "md5" [3, 4, 5]))
    ∧ (stC3.start_copy hashlib_algorithms_guaranteed demoHash fsC3).toOption.map
        (fun x => x.1.destinations.map (fun e => e.2.checksum_value))
        = some [some (demoHash "sha256" [3, 4, 5])]
    ∧ demoHash "sha256" [3, 4, 5] ≠ demoHash "md5" [3, 4, 5]
    ∧ finalRead (stC3.start_copy hashlib_algorithms_guaranteed demoHash fsC3) "u/files/b"
        = some none
    ∧ finalStatuses (stC3.start_copy hashlib_algorithms_guaranteed demoHash fsC3)
        = some [StagingStatus.COULD_NOT_REMOVE] := by
  refine ⟨by decide, by decide, by decide, by decide, by decide⟩

/-! ### Claim C10 -/

theorem write_files_valueError (hlAvail : List String) (H : HashFn)
    (st : FileStager) (fs : FS) (h : st.algorithm ∉ hlAvail) :
    st.write_files hlAvail H fs = .error (.valueError, st, fs) := by
  unfold FileStager.write_files
  rw [if_neg h]

/-- Claim C10: every xxhash-family algorithm is in the supported registry;
yet for such an algorithm unknown to hashlib (`hlAvail` models
`hashlib.algorithms_available`), staging a file whose Open phase fully
succeeds raises `ValueError` from `hashlib.new` inside `write_files` -
before any block is written, with the filesystem and stager exactly as the
Open phase left them - and the exception escapes `_stage_file`, so the task
records no per-destination StagingStatus outcome. -/
theorem claim_C10 :
    (∀ a ∈ xxhash_algorithms_available, a ∈ algorithms_supported)
    ∧ ∀ (hlAvail : List String) (H : HashFn) (source : FPath)
        (dests : List DestSpec) (alg : String) (fs : FS),
        alg ∈ xxhash_algorithms_available →
        alg ∉ hlAvail →
        ((FileStager.next_file alg default_blocksize true source
            dests).open_destination_files fs).1.ready = true →
        stage_file hlAvail H source dests alg fs =
          .error (.valueError,
            ((FileStager.next_file alg default_blocksize true source
                dests).open_destination_files fs).1,
            ((FileStager.next_file alg default_blocksize true source
                dests).open_destination_files fs).2) := by
  constructor
  · intro a ha
    simp only [algorithms_supported, List.mem_append]
    exact Or.inr ha
  · intro hlAvail H source dests alg fs _ hnot hready
    have halg : ((FileStager.next_file alg default_blocksize true source
        dests).open_destination_files fs).1.algorithm = alg := rfl
    simp only [stage_file, FileStager.start_copy, hready, if_true]
    rw [write_files_valueError _ _ _ _ (by rw [halg]; exact hnot)]

theorem claim_C10_witness :
    stage_file hashlib_algorithms_guaranteed demoHash "src" [destSpecC2] "xxh64" fsC2 =
      .error (.valueError,
        ((FileStager.next_file "xxh64" default_blocksize true "src"
            [destSpecC2]).open_destination_files fsC2).1,
        ((FileStager.next_file "xxh64" default_blocksize true "src"
            [destSpecC2]).open_destination_files fsC2).2) :=
  claim_C10.2 hashlib_algorithms_guaranteed demoHash "src" [destSpecC2] "xxh64" fsC2
    (by decide) (by decide) (by decide)

/-! ### Claim C9 -/

/-- Claim C9: the `for n in range(1, 5)` loop of `FileStager._open_file`
executes at most its first iteration - the `return handler` in the
`finally` clause makes the body return on iteration 1 for every outcome of
`open`, so the loop result depends only on the first attempt and the
function never actually retries.  A successful first `open` returns its
handle; ANY exception from the first `open` (including the
`FileNotFoundError` the loop exists to retry) is suppressed and the call
raises `UnboundLocalError` instead, because `handler` was never assigned.
In `open_destination_files` this is caught as a generic exception: a
destination whose data file cannot be opened ends in DATA_WRITE_FAILURE
with the `UnboundLocalError` as its detail. -/
theorem claim_C9 :
    (∀ (α : Type) (a a' : Nat → Except PyExc α),
      a 1 = a' 1 → open_file_loop a = open_file_loop a')
    ∧ (∀ (α : Type) (a : Nat → Except PyExc α) (h : α),
      a 1 = .ok h → open_file_loop a = some (.ok h))
    ∧ (∀ (α : Type) (a : Nat → Except PyExc α) (e : PyExc),
      a 1 = .error e → open_file_loop a = some (.error .unboundLocalError))
    ∧ (∀ (fs : FS) (d : Dest),
      d.data_file ∈ fs.unopenable →
      osPathExists fs d.data_file = false →
      (match d.checksum_file with
       | some cf => osPathExists fs cf = false
       | none => True) →
      open_one_dest fs d =
        ({ d with status := .DATA_WRITE_FAILURE,
                  substatus := some .unboundLocalError }, fs)) := by
  refine ⟨?_, ?_, ?_, ?_⟩
  · intro α a a' h
    simp only [open_file_loop, run_retry_loop, open_retry_body]
    cases ha : a 1 <;> cases ha' : a' 1 <;> rw [ha, ha'] at h <;> simp_all
  · intro α a h ha
    simp only [open_file_loop, run_retry_loop, open_retry_body, ha]
  · intro α a e ha
    simp only [open_file_loop, run_retry_loop, open_retry_body, ha]
  · intro fs d h1 h2 h3
    unfold open_one_dest
    rw [h2]
    cases hc : d.checksum_file with
    | none =>
      simp only [hc, Option.map_none, Option.getD_none,
        open_file, open_file_loop, run_retry_loop, open_retry_body, pyOpenCreate,
        if_pos h1]
      simp
    | some cf =>
      rw [hc] at h3
      simp only at h3
      simp only [hc, Option.map_some, Option.getD_some, h3,
        open_file, open_file_loop, run_retry_loop, open_retry_body, pyOpenCreate,
        if_pos h1]
      simp [h3]

theorem claim_C9_witness :
    open_file_loop (fun _ => (Except.error PyExc.fileNotFoundError : Except PyExc Nat))
        = some (.error .unboundLocalError)
    ∧ open_one_dest ⟨[], ["w/x"]⟩ ⟨"w/x", some "c/x", none, none, .READY, none, none⟩ =
        (⟨"w/x", some "c/x", none, none, .DATA_WRITE_FAILURE,
          some .unboundLocalError, none⟩, ⟨[], ["w/x"]⟩) :=
  ⟨claim_C9.2.2.1 Nat _ PyExc.fileNotFoundError rfl,
   claim_C9.2.2.2 ⟨[], ["w/x"]⟩ ⟨"w/x", some "c/x", none, none, .READY, none, none⟩
     (by decide) (by decide) (by decide)⟩

/-! ### Staging orchestrator results (_add_to_results and the loop of
stage_files, src/mpt/staging.py) -/

/-- One recorded row: source path plus the per-destination statuses. -/
structure StagingEntry where
  path : String
  dests : List (FPath × StagingStatus)
deriving DecidableEq, Repr

/-- Model of the mutable `results` dictionary of `stage_files`. -/
structure RunResults where
  staged : List StagingEntry
  failed : List StagingEntry
  aborted : List StagingEntry
  unknown : List StagingEntry
  consecutive_failures : Nat
  failure_threshold : Nat
deriving DecidableEq, Repr

/-- Threshold selection in `stage_files`: the command-line value if given,
else the default `max_failures`. -/
def failure_threshold_of (arg : Option Nat) : Nat :=
  match arg with
  | none => max_failures
  | some m => m

/-- Test of `_add_to_results`: does any destination of the task carry a
write-failure state. -/
def write_failed_task (new_results : List (FPath × Dest)) : Bool :=
  new_results.any (fun r => decide (r.2.status ∈
    [StagingStatus.DATA_WRITE_FAILURE, StagingStatus.CHECKSUM_WRITE_FAILURE]))

def RunResults.addEntry (res : RunResults) (s : TaskStatus) (e : StagingEntry) :
    RunResults :=
  match s with
  | .staged => { res with staged := res.staged ++ [e] }
  | .failed => { res with failed := res.failed ++ [e] }
  | .aborted => { res with aborted := res.aborted ++ [e] }
  | .unknown => { res with unknown := res.unknown ++ [e] }

/-- Model of `_add_to_results`: appends the entry to the list selected by
the task's summary status, updates the single consecutive write-failure
counter (a task with a write-failure destination increments it, any other
task resets it to zero) and returns whether the loop in `stage_files` must
terminate: counter strictly greater than the threshold. -/
def add_to_results (res : RunResults) (new_file : String)
    (file_status : TaskStatus) (new_results : List (FPath × Dest)) :
    RunResults × Bool :=
  let entry : StagingEntry := ⟨new_file, new_results.map (fun e => (e.1, e.2.status))⟩
  let res1 := res.addEntry file_status entry
  let res2 :=
    if write_failed_task new_results then
      { res1 with consecutive_failures := res1.consecutive_failures + 1 }
    else { res1 with consecutive_failures := 0 }
  (res2, decide (res2.consecutive_failures > res2.failure_threshold))

/-- The result-collection loop of `stage_files`: completed tasks are
consumed in completion order (modelled by the list order); after each task
`_add_to_results` decides whether to break.  Returns the final results and
how many completed tasks were consumed; once the break fires, no further
task is taken and no new submissions are driven. -/
def stage_files_loop (res : RunResults) :
    List (String × TaskStatus × List (FPath × Dest)) → RunResults × Nat
  | [] => (res, 0)
  | (f, s, d) :: rest =>
    let r := add_to_results res f s d
    if r.2 then (r.1, 1)
    else
      let r' := stage_files_loop r.1 rest
      (r'.1, r'.2 + 1)

/-! ### Claim C4 -/

/-- Task result whose single destination is in DATA_WRITE_FAILURE. -/
def wfTask : String × TaskStatus × List (FPath × Dest) :=
  ("f", .failed,
    [("r", ⟨"r/a", some "c/a", none, none, .DATA_WRITE_FAILURE, none, none⟩)])

/-- Claim C4: `_add_to_results` maintains a single counter - a completed
task with some destination in DATA_WRITE_FAILURE or CHECKSUM_WRITE_FAILURE
increments it by one, every other completed task resets it to zero, the
threshold is left unchanged, and termination is signalled exactly when the
counter exceeds the threshold.  The default threshold is `max_failures` =
10.  With threshold 3, a run of five consecutive write-failure tasks stops
after consuming exactly the 4th (counter 4 > 3), halting new submissions. -/
theorem claim_C4 :
    (∀ (res : RunResults) (f : String) (s : TaskStatus) (d : List (FPath × Dest)),
      (add_to_results res f s d).1.consecutive_failures =
        (if write_failed_task d then res.consecutive_failures + 1 else 0)
      ∧ (add_to_results res f s d).1.failure_threshold = res.failure_threshold
      ∧ ((add_to_results res f s d).2 = true ↔
          (add_to_results res f s d).1.consecutive_failures > res.failure_threshold))
    ∧ failure_threshold_of none = 10
    ∧ (stage_files_loop ⟨[], [], [], [], 0, 3⟩
        [wfTask, wfTask, wfTask, wfTask, wfTask]).2 = 4
    ∧ (stage_files_loop ⟨[], [], [], [], 0, 3⟩
        [wfTask, wfTask, wfTask, wfTask, wfTask]).1.consecutive_failures = 4 := by
  refine ⟨?_, rfl, by decide, by decide⟩
  intro res f s d
  have hcnt : ∀ e, (res.addEntry s e).consecutive_failures = res.consecutive_failures := by
    intro e; cases s <;> rfl
  have hthr : ∀ e, (res.addEntry s e).failure_threshold = res.failure_threshold := by
    intro e; cases s <;> rfl
  by_cases hw : write_failed_task d
  · simp [add_to_results, hw, hcnt, hthr]
  · simp [add_to_results, hw, hcnt, hthr]

/-! ### Manifest iteration (iterate_manifest, src/mpt/filemanager.py 82-93) -/

/-- Model of `str.split(sep, 1)` as used by `iterate_manifest`: split at
the FIRST occurrence of the separator; `none` when the separator does not
occur (Python then returns the one-element list `[line]`). -/
def splitFirst (sep : Char) : List Char → Option (List Char × List Char)
  | [] => none
  | c :: t =>
    if c = sep then some ([], t)
    else (splitFirst sep t).map (fun r => (c :: r.1, r.2))

/-- Model of `iterate_manifest`: for each line, strip trailing '\r'/'\n',
split on the first ' ' into [checksum, path]; only lines whose split has
more than one component are yielded. -/
def iterate_manifest (lines : List (List Char)) : List (List Char × List Char) :=
  lines.filterMap (fun l => splitFirst ' ' (rstripCRLFL l))

theorem splitFirst_append (sep : Char) (d p : List Char) (h : sep ∉ d) :
    splitFirst sep (d ++ sep :: p) = some (d, p) := by
  induction d with
  | nil => simp [splitFirst]
  | cons c t ih =>
    have hc : ¬c = sep := by
      intro hcs; exact h (hcs ▸ List.mem_cons_self c t)
    have ht : sep ∉ t := fun hm => h (List.mem_cons_of_mem c hm)
    simp [splitFirst, hc, ih ht]

theorem splitFirst_none (sep : Char) (l : List Char) (h : sep ∉ l) :
    splitFirst sep l = none := by
  induction l with
  | nil => rfl
  | cons c t ih =>
    have hc : ¬c = sep := by
      intro hcs; exact h (hcs ▸ List.mem_cons_self c t)
    have ht : sep ∉ t := fun hm => h (List.mem_cons_of_mem c hm)
    simp [splitFirst, hc, ih ht]

/-! ### Claim C8 -/

/-- Claim C8: manifest parsing splits each line on the FIRST space
separator into a (digest, path) pair and yields exactly that pair - the
digest component contains no separator and `digest ++ ' ' :: path`
reassembles the (newline-stripped) line - while every line containing no
separator is skipped: it is neither yielded nor an error, and parsing
continues with the remaining lines. -/
theorem claim_C8 :
    (∀ (l : List Char) (ls : List (List Char)) (d p : List Char),
      rstripCRLFL l = d ++ ' ' :: p → ' ' ∉ d →
      iterate_manifest (l :: ls) = (d, p) :: iterate_manifest ls)
    ∧ (∀ (l : List Char) (ls : List (List Char)),
      ' ' ∉ rstripCRLFL l →
      iterate_manifest (l :: ls) = iterate_manifest ls) := by
  constructor
  · intro l ls d p hsplit hd
    simp [iterate_manifest, List.filterMap_cons, hsplit, splitFirst_append ' ' d p hd]
  · intro l ls h
    simp [iterate_manifest, List.filterMap_cons, splitFirst_none ' ' _ h]

theorem claim_C8_witness :
    iterate_manifest [['a', 'b', ' ', 'c', '\n']] = [(['a', 'b'], ['c'])]
    ∧ iterate_manifest [['x', 'y'], ['a', 'b', ' ', 'c', '\n']]
        = iterate_manifest [['a', 'b', ' ', 'c', '\n']] :=
  ⟨claim_C8.1 ['a', 'b', ' ', 'c', '\n'] [] ['a', 'b'] ['c'] (by decide) (by decide),
   claim_C8.2 ['x', 'y'] [['a', 'b', ' ', 'c', '\n']] (by decide)⟩

/-! ### Comparison / creation result codes (src/mpt/codes.py) -/

inductive ComparisonResult where
  | MATCHED
  | UNMATCHED
  | MISSING
  | OSERROR
deriving DecidableEq, Repr

/-- Lower-cased enum member name, as `status.name.lower()` produces for the
report columns. -/
def ComparisonResult.nameLower : ComparisonResult → String
  | .MATCHED => "matched"
  | .UNMATCHED => "unmatched"
  | .MISSING => "missing"
  | .OSERROR => "oserror"

inductive CreationResult where
  | ADDED
  | SKIPPED
  | FAILED
deriving DecidableEq, Repr

/-- Model of `FileManager._normalise_path`: with `absolute_path` set,
replace the root placeholder by the primary path; otherwise the identity.
(Python indexes `file_path[0]`; the `startsWith` test covers the non-empty
strings this is called on.) -/
def normalise_path (absolute_path : Bool) (primary : String) (p : String) : String :=
  match p.toList with
  | '*' :: _ => if absolute_path then p.replace "*" primary else p
  | _ => p

/-! ### Manifest comparison (_check_other_manifests,
src/mpt/filemanager.py 257-298) -/

/-- Model of `mmap.find(pat)`: lowest index at which `pat` occurs as a
contiguous substring, `none` for Python's -1. -/
def firstIndexOf (pat : List Char) : List Char → Option Nat
  | [] => if pat = [] then some 0 else none
  | c :: rest =>
    if (c :: rest).take pat.length = pat then some 0
    else (firstIndexOf pat rest).map (· + 1)

/-- Python slice index normalisation for `s[a:b]`: a negative index counts
from the end; both endpoints are clamped into `[0, n]`. -/
def pyIdx (n : Nat) (i : Int) : Nat :=
  if i < 0 then ((n : Int) + i).toNat else min i.toNat n

/-- Python slice `t[a:b]`. -/
def pySlice (t : List Char) (a b : Int) : List Char :=
  (t.take (pyIdx t.length b)).drop (pyIdx t.length a)

/-- Per-manifest comparison of `_check_other_manifests` for one master
entry (file_cs, file_path) against the mmap'ed text `t` of another
manifest:

    found = manifest_map.find(file_path)     (MISSING when -1)
    s_pos = found - (len(file_cs) + 1)
    e_pos = s_pos + len(file_cs)
    manifest_cs = manifest_map[s_pos:e_pos]
    MATCHED iff manifest_cs decodes to file_cs, else UNMATCHED

The slice uses Python semantics, so when `found < len(file_cs) + 1` the
negative start wraps to the end of the buffer. -/
def check_one_manifest (file_cs file_path t : List Char) : ComparisonResult :=
  match firstIndexOf file_path t with
  | none => .MISSING
  | some found =>
    let s_pos : Int := (found : Int) - ((file_cs.length : Int) + 1)
    let e_pos : Int := s_pos + (file_cs.length : Int)
    if pySlice t s_pos e_pos = file_cs then .MATCHED else .UNMATCHED

def isPyWs (c : Char) : Bool :=
  c = ' ' || c = '\t' || c = '\n' || c = '\r' || c = '\x0b' || c = '\x0c'

def pySplitWsGo : Nat → List Char → List (List Char)
  | _, [] => []
  | 0, _ => []
  | fuel + 1, c :: t =>
    if isPyWs c then pySplitWsGo fuel t
    else
      ((c :: t).takeWhile (fun x => !isPyWs x)) ::
        pySplitWsGo fuel ((c :: t).dropWhile (fun x => !isPyWs x))

/-- Model of Python `str.split()` with no argument: split on runs of
whitespace, producing no empty components. -/
def pySplitWs (l : List Char) : List (List Char) := pySplitWsGo l.length l

/-- Model of `_check_other_manifests` over mmap'ed other manifests given as
(path, text) pairs.  `file_cs = line.split()[0]` and
`file_path = ' '.join(line.split()[1:])`; a blank line (IndexError) or an
empty path yields `none`, the Python `(None, None)`. -/
def check_other_manifests (absolute_path : Bool) (primary : String)
    (others : List (FPath × List Char)) (manifest_line : List Char) :
    Option (String × List (FPath × ComparisonResult)) :=
  match pySplitWs manifest_line with
  | [] => none
  | file_cs :: rest =>
    let file_path := (rest.intersperse [' ']).flatten
    if file_path = [] then none
    else
      some (normalise_path absolute_path primary (String.mk file_path),
        others.map (fun m => (m.1, check_one_manifest file_cs file_path m.2)))

/-! ### Substring occurrence, and what firstIndexOf computes -/

/-- Occurrence of `pat` as a contiguous substring of `t` at index `i`. -/
def occursAt (pat t : List Char) (i : Nat) : Prop :=
  (t.drop i).take pat.length = pat

instance occursAt.decidable (pat t : List Char) (i : Nat) :
    Decidable (occursAt pat t i) := by
  unfold occursAt; infer_instance

/-- First occurrence: an occurrence at `i`, none earlier. -/
def firstOccurrenceAt (pat t : List Char) (i : Nat) : Prop :=
  occursAt pat t i ∧ ∀ j < i, ¬ occursAt pat t j

instance firstOccurrenceAt.decidable (pat t : List Char) (i : Nat) :
    Decidable (firstOccurrenceAt pat t i) := by
  unfold firstOccurrenceAt; infer_instance

theorem occursAt_cons_succ (pat : List Char) (c : Char) (rest : List Char)
    (j : Nat) : occursAt pat (c :: rest) (j + 1) = occursAt pat rest j := rfl

theorem firstIndexOf_none_iff (pat t : List Char) :
    firstIndexOf pat t = none ↔ ∀ i, ¬ occursAt pat t i := by
  induction t with
  | nil =>
    by_cases hp : pat = []
    · subst hp
      simp [firstIndexOf]
      exact ⟨0, by simp [occursAt]⟩
    · simp only [firstIndexOf, if_neg hp]
      constructor
      · intro _ i
        simp [occursAt]
        intro h
        exact hp (by simpa using h.symm)
      · intro _; trivial
  | cons c rest ih =>
    by_cases h0 : (c :: rest).take pat.length = pat
    · simp only [firstIndexOf, if_pos h0]
      constructor
      · intro h; exact absurd h (by simp)
      · intro h; exact absurd h0 (h 0)
    · simp only [firstIndexOf, if_neg h0, Option.map_eq_none', ih]
      constructor
      · intro h i
        cases i with
        | zero => exact h0
        | succ j => rw [occursAt_cons_succ]; exact h j
      · intro h j
        have := h (j + 1)
        rwa [occursAt_cons_succ] at this

theorem firstIndexOf_some_first (pat t : List Char) (i : Nat)
    (h : firstIndexOf pat t = some i) : firstOccurrenceAt pat t i := by
  induction t generalizing i with
  | nil =>
    by_cases hp : pat = []
    · simp only [firstIndexOf, if_pos hp, Option.some_inj] at h
      subst h
      exact ⟨by simp [occursAt, hp], by omega⟩
    · simp [firstIndexOf, hp] at h
  | cons c rest ih =>
    by_cases h0 : (c :: rest).take pat.length = pat
    · simp only [firstIndexOf, if_pos h0, Option.some_inj] at h
      subst h
      exact ⟨h0, by omega⟩
    · simp only [firstIndexOf, if_neg h0, Option.map_eq_some'] at h
      obtain ⟨i', hi', rfl⟩ := h
      have hrec := ih i' hi'
      refine ⟨by rw [occursAt_cons_succ]; exact hrec.1, ?_⟩
      intro j hj
      cases j with
      | zero => exact h0
      | succ k =>
        rw [occursAt_cons_succ]
        exact hrec.2 k (by omega)

theorem firstIndexOf_eq_some_of_first (pat t : List Char) (i : Nat)
    (h : firstOccurrenceAt pat t i) : firstIndexOf pat t = some i := by
  cases hf : firstIndexOf pat t with
  | none => exact absurd h.1 ((firstIndexOf_none_iff pat t).mp hf i)
  | some i' =>
    have h' := firstIndexOf_some_first pat t i' hf
    have : i' = i := by
      rcases Nat.lt_trichotomy i' i with hlt | heq | hgt
      · exact absurd h'.1 (h.2 i' hlt)
      · exact heq
      · exact absurd h.1 (h'.2 i hgt)
    rw [this]

theorem occursAt_lt_length (pat t : List Char) (i : Nat) (hp : pat ≠ [])
    (h : occursAt pat t i) : i < t.length := by
  by_contra hge
  have hd : t.drop i = [] := List.drop_eq_nil_of_le (by omega)
  unfold occursAt at h
  rw [hd] at h
  exact hp (by simpa using h.symm)

theorem pySlice_preceding (t cs : List Char) (i : Nat)
    (hlen : cs.length + 1 ≤ i) (hin : i < t.length) :
    pySlice t ((i : Int) - ((cs.length : Int) + 1))
      (((i : Int) - ((cs.length : Int) + 1)) + (cs.length : Int)) =
    (t.drop (i - cs.length - 1)).take cs.length := by
  have ha : pyIdx t.length ((i : Int) - ((cs.length : Int) + 1))
      = i - cs.length - 1 := by
    unfold pyIdx
    rw [if_neg (by omega)]
    omega
  have hb : pyIdx t.length (((i : Int) - ((cs.length : Int) + 1)) + (cs.length : Int))
      = i - 1 := by
    unfold pyIdx
    rw [if_neg (by omega)]
    omega
  unfold pySlice
  rw [ha, hb, List.drop_take]
  congr 1
  omega

/-! ### Claim C7 -/

/-- Claim C7: for a master-manifest entry (digest, path) and the text of
another manifest, the comparison in `_check_other_manifests` reports
MISSING exactly when the literal path token does not occur in that
manifest's text; otherwise - provided the first occurrence leaves room for
a digest token before it - it reads the |digest| characters immediately
preceding the one-character separator before the first occurrence of the
path token, and reports MATCHED when they equal the master digest and
UNMATCHED when they differ. -/
theorem claim_C7 (file_cs file_path t : List Char) :
    (check_one_manifest file_cs file_path t = .MISSING ↔
      ∀ i, ¬ occursAt file_path t i)
    ∧ (∀ i, firstOccurrenceAt file_path t i → file_cs.length + 1 ≤ i →
        ((check_one_manifest file_cs file_path t = .MATCHED ↔
          (t.drop (i - file_cs.length - 1)).take file_cs.length = file_cs)
        ∧ (check_one_manifest file_cs file_path t = .UNMATCHED ↔
          (t.drop (i - file_cs.length - 1)).take file_cs.length ≠ file_cs))) := by
  constructor
  · cases hf : firstIndexOf file_path t with
    | none =>
      simp only [check_one_manifest, hf]
      exact ⟨fun _ => (firstIndexOf_none_iff file_path t).mp hf, fun _ => trivial⟩
    | some found =>
      have hocc := (firstIndexOf_some_first file_path t found hf).1
      simp only [check_one_manifest, hf]
      constructor
      · intro h
        by_cases hs : pySlice t ((found : Int) - ((file_cs.length : Int) + 1))
            (((found : Int) - ((file_cs.length : Int) + 1)) + (file_cs.length : Int))
            = file_cs <;> simp [hs] at h
      · intro h
        exact absurd hocc (h found)
  · intro i hfirst hlen
    have hf : firstIndexOf file_path t = some i :=
      firstIndexOf_eq_some_of_first file_path t i hfirst
    have hp : file_path ≠ [] := by
      intro hnil
      have h0 : occursAt file_path t 0 := by simp [occursAt, hnil]
      have : i = 0 := by
        by_contra hi
        exact hfirst.2 0 (by omega) h0
      omega
    have hin : i < t.length := occursAt_lt_length file_path t i hp hfirst.1
    have hs := pySlice_preceding t file_cs i hlen hin
    simp only [check_one_manifest, hf, hs]
    constructor
    · constructor
      · intro h
        by_cases hc : (t.drop (i - file_cs.length - 1)).take file_cs.length = file_cs
        · exact hc
        · simp [hc] at h
      · intro hc
        simp [hc]
    · constructor
      · intro h
        by_cases hc : (t.drop (i - file_cs.length - 1)).take file_cs.length = file_cs
        · simp [hc] at h
        · exact hc
      · intro hc
        simp [hc]

theorem claim_C7_witness :
    check_one_manifest ['a', 'b'] ['*', 'p'] ['a', 'b', ' ', '*', 'p'] =
      ComparisonResult.MATCHED :=
  ((claim_C7 ['a', 'b'] ['*', 'p'] ['a', 'b', ' ', '*', 'p']).2 3
    (by decide) (by decide)).1.mpr (by decide)

/-! ### Checksum tree comparison (_compare_checksum_file_to_other_trees,
src/mpt/filemanager.py 300-337) -/

/-- First space-separated token of a sidecar file's text after stripping
trailing newlines: `cs_file.read().rstrip('\r\n').split(' ')[0]`. -/
def cs_first_token (b : Bytes) : String :=
  String.mk ((rstripCRLFL (decodeStr b).toList).takeWhile (fun c => !(c == ' ')))

/-- Model of `_compare_checksum_file_to_other_trees`.  The master sidecar
lies at `primary ++ "/" ++ rel_path` (`os.path.relpath` inverts the join);
for every other tree root the sidecar is looked up at the same relative
path: MATCHED/UNMATCHED by comparing first tokens when it exists, MISSING
otherwise.  An unreadable master sidecar yields a single OSERROR result
against the synthetic "ALL" target.  (In the model a file that exists is
readable, so the per-tree OSERROR branch of the inner `try` is never
taken.) -/
def compare_checksum_file_to_other_trees (fs : FS) (absolute_path : Bool)
    (primary : String) (rel_path : String) (other_paths : List FPath) :
    String × List (String × ComparisonResult) :=
  let file_key := "*/" ++ rel_path
  match fs.read (primary ++ "/" ++ rel_path) with
  | none =>
    (normalise_path absolute_path (primary ++ "/") file_key, [("ALL", .OSERROR)])
  | some mb =>
    let master_cs := cs_first_token mb
    (normalise_path absolute_path (primary ++ "/") file_key,
      other_paths.map (fun next_tree =>
        match fs.read (next_tree ++ "/" ++ rel_path) with
        | some ob =>
          (next_tree,
            if master_cs = cs_first_token ob then ComparisonResult.MATCHED
            else ComparisonResult.UNMATCHED)
        | none => (next_tree, ComparisonResult.MISSING)))

/-- Model of `ReportHandler.assign_comparison_result`
(src/mpt/results.py 120-138) as the ordered list of `add_result` records it
emits.  A record is (report category, row data); the row data lists the
path column followed by one lower-cased status column per destination.
When any destination differs from MATCHED, one record is emitted per
differing destination (under that destination's category); otherwise a
single MATCHED record is emitted. -/
def assign_comparison_result (file_path : String)
    (file_status : List (String × ComparisonResult)) :
    List (ComparisonResult × List (String × String)) :=
  let failed := file_status.any (fun v => decide (v.2 ≠ ComparisonResult.MATCHED))
  let file_results : List (String × String) :=
    ("path", file_path) :: file_status.map (fun e => (e.1, e.2.nameLower))
  if failed then
    (file_status.filter (fun e =>
        decide (e.1 ≠ "path") && decide (e.2 ≠ ComparisonResult.MATCHED))).map
      (fun e => (e.2, file_results))
  else [(ComparisonResult.MATCHED, file_results)]

theorem normalise_path_false (primary p : String) :
    normalise_path false primary p = p := by
  unfold normalise_path
  split <;> rfl

/-! ### Claim C5 -/

/-- Claim C5: for CompareTrees over a master tree A and two other trees B
(byte-identical sidecar) and C (sidecar missing), the file absent from C
produces exactly one emitted record - category MISSING, i.e. one record
per differing destination - whose row records it as missing for C and as
"matched" for B; while a file identical across all three trees produces
exactly one record, of category MATCHED. -/
theorem claim_C5 (fs : FS) (A B C : FPath) (rel rel2 : String) (m m2 : Bytes)
    (hA : fs.read (A ++ "/" ++ rel) = some m)
    (hB : fs.read (B ++ "/" ++ rel) = some m)
    (hC : fs.read (C ++ "/" ++ rel) = none)
    (hCpath : C ≠ "path")
    (hA2 : fs.read (A ++ "/" ++ rel2) = some m2)
    (hB2 : fs.read (B ++ "/" ++ rel2) = some m2)
    (hC2 : fs.read (C ++ "/" ++ rel2) = some m2) :
    compare_checksum_file_to_other_trees fs false A rel [B, C] =
      ("*/" ++ rel, [(B, .MATCHED), (C, .MISSING)])
    ∧ assign_comparison_result ("*/" ++ rel) [(B, .MATCHED), (C, .MISSING)] =
        [(.MISSING, [("path", "*/" ++ rel), (B, "matched"), (C, "missing")])]
    ∧ (assign_comparison_result ("*/" ++ rel)
        [(B, .MATCHED), (C, .MISSING)]).length = 1
    ∧ compare_checksum_file_to_other_trees fs false A rel2 [B, C] =
        ("*/" ++ rel2, [(B, .MATCHED), (C, .MATCHED)])
    ∧ assign_comparison_result ("*/" ++ rel2) [(B, .MATCHED), (C, .MATCHED)] =
        [(.MATCHED, [("path", "*/" ++ rel2), (B, "matched"), (C, "matched")])]
    ∧ (assign_comparison_result ("*/" ++ rel2)
        [(B, .MATCHED), (C, .MATCHED)]).length = 1 := by
  refine ⟨?_, ?_, ?_, ?_, ?_, ?_⟩
  · simp [compare_checksum_file_to_other_trees, hA, hB, hC, normalise_path_false]
  · simp [assign_comparison_result, ComparisonResult.nameLower, hCpath]
  · simp [assign_comparison_result, ComparisonResult.nameLower, hCpath]
  · simp [compare_checksum_file_to_other_trees, hA2, hB2, hC2, normalise_path_false]
  · simp [assign_comparison_result, ComparisonResult.nameLower]
  · simp [assign_comparison_result, ComparisonResult.nameLower]

def fsC5 : FS :=
  ⟨[("A/x.sha256", encodeStr "d1 *\\x"), ("B/x.sha256", encodeStr "d1 *\\x"),
    ("A/y.sha256", encodeStr "d2 *\\y"), ("B/y.sha256", encodeStr "d2 *\\y"),
    ("C/y.sha256", encodeStr "d2 *\\y")], []⟩

theorem claim_C5_witness :
    compare_checksum_file_to_other_trees fsC5 false "A" "x.sha256" ["B", "C"] =
      ("*/x.sha256", [("B", .MATCHED), ("C", .MISSING)])
    ∧ assign_comparison_result "*/x.sha256" [("B", .MATCHED), ("C", .MISSING)] =
        [(.MISSING,
          [("path", "*/x.sha256"), ("B", "matched"), ("C", "missing")])]
    ∧ compare_checksum_file_to_other_trees fsC5 false "A" "y.sha256" ["B", "C"] =
        ("*/y.sha256", [("B", .MATCHED), ("C", .MATCHED)])
    ∧ assign_comparison_result "*/y.sha256" [("B", .MATCHED), ("C", .MATCHED)] =
        [(.MATCHED,
          [("path", "*/y.sha256"), ("B", "matched"), ("C", "matched")])] := by
  have h := claim_C5 fsC5 "A" "B" "C" "x.sha256" "y.sha256"
    (encodeStr "d1 *\\x") (encodeStr "d2 *\\y")
    (by decide) (by decide) (by decide) (by decide) (by decide) (by decide) (by decide)
  exact ⟨h.1, h.2.1, h.2.2.2.1, h.2.2.2.2.1⟩

/-! ### Checksum creation (_create_checksum_or_skip_file,
src/mpt/filemanager.py 339-371) -/

/-- Configuration of a Create run.  `primary` is `self.primary_path`,
which `FileManager.__init__` stores WITH its trailing separator. -/
structure CreateCfg where
  primary : String
  cs_dir : String
  manifest_file : Option FPath
  algorithm : String
  absolute_path : Bool
deriving DecidableEq, Repr

/-- Sidecar path `os.path.join(self.cs_dir, r_path) + '.' + algorithm`
computed by `_create_checksum_or_skip_file` (`fix_path` is the identity off
Windows). -/
def outFile (cfg : CreateCfg) (in_file : FPath) : FPath :=
  cfg.cs_dir ++ "/" ++ stripPrefixStr cfg.primary in_file ++ "." ++ cfg.algorithm

/-- Model of `_create_checksum_or_skip_file`: an existing sidecar means
SKIPPED; otherwise digest the file and write the sidecar - any exception in
that `try` block (source unreadable, sidecar unwritable) gives FAILED -
then, OUTSIDE the `try`, append the manifest line when a manifest is
configured (an `open(..., 'a+')` failure there escapes uncaught) and return
ADDED with the byte size. -/
def create_checksum_or_skip_file (H : HashFn) (cfg : CreateCfg) (fs : FS)
    (in_file : FPath) :
    Except PyExc ((String × CreationResult × Option Nat) × FS) :=
  let r_path := stripPrefixStr cfg.primary in_file
  let out_file := outFile cfg in_file
  if osPathExists fs out_file then .ok ((in_file, .SKIPPED, none), fs)
  else
    match fs.read in_file with
    | none => .ok ((in_file, .FAILED, none), fs)
    | some content =>
      if out_file ∈ fs.unopenable then .ok ((in_file, .FAILED, none), fs)
      else
        let checksum := H cfg.algorithm content
        let fs1 := fs.write out_file
          (encodeStr (checksum ++ " */" ++ basenameStr in_file ++ "\n"))
        match cfg.manifest_file with
        | none =>
          .ok ((normalise_path cfg.absolute_path cfg.primary in_file, .ADDED,
            some content.length), fs1)
        | some m =>
          if m ∈ fs1.unopenable then .error .osError
          else
            .ok ((normalise_path cfg.absolute_path cfg.primary in_file, .ADDED,
              some content.length),
              fs1.append m (encodeStr (checksum ++ " */" ++ r_path ++ "\n")))

/-- The Create pipeline drained over the (extension-filtered) scan of the
primary tree, one file at a time. -/
def create_run (H : HashFn) (cfg : CreateCfg) (fs : FS) :
    List FPath → Except PyExc (List (String × CreationResult × Option Nat) × FS)
  | [] => .ok ([], fs)
  | f :: rest =>
    match create_checksum_or_skip_file H cfg fs f with
    | .error e => .error e
    | .ok (r, fs1) =>
      match create_run H cfg fs1 rest with
      | .error e => .error e
      | .ok (rs, fs2) => .ok (r :: rs, fs2)

theorem create_step_skip (H : HashFn) (cfg : CreateCfg) (fs : FS) (f : FPath)
    (h : osPathExists fs (outFile cfg f) = true) :
    create_checksum_or_skip_file H cfg fs f = .ok ((f, .SKIPPED, none), fs) := by
  unfold create_checksum_or_skip_file
  simp [h]

theorem create_step_mono (H : HashFn) (cfg : CreateCfg) (fs : FS) (f : FPath)
    (r : String × CreationResult × Option Nat) (fs' : FS)
    (h : create_checksum_or_skip_file H cfg fs f = .ok (r, fs'))
    (p : FPath) (hp : osPathExists fs p = true) : osPathExists fs' p = true := by
  unfold create_checksum_or_skip_file at h
  by_cases h1 : osPathExists fs (outFile cfg f) = true
  · simp [h1] at h
    rw [← h.2]
    exact hp
  · simp [h1] at h
    cases hread : fs.read f with
    | none =>
      rw [hread] at h
      simp at h
      rw [← h.2]
      exact hp
    | some content =>
      rw [hread] at h
      simp only at h
      by_cases h2 : outFile cfg f ∈ fs.unopenable
      · simp [h2] at h
        rw [← h.2]
        exact hp
      · simp only [if_neg h2] at h
        cases hm : cfg.manifest_file with
        | none =>
          rw [hm] at h
          simp at h
          rw [← h.2, osPathExists_write]
          simp [hp]
        | some m =>
          rw [hm] at h
          by_cases h3 : m ∈ (fs.write (outFile cfg f)
              (encodeStr (H cfg.algorithm content ++ " */" ++ basenameStr f ++ "\n"))).unopenable
          · simp [h3] at h
          · simp [h3] at h
            rw [← h.2, osPathExists_append, osPathExists_write]
            simp [hp]

theorem create_step_creates (H : HashFn) (cfg : CreateCfg) (fs : FS) (f : FPath)
    (r : String × CreationResult × Option Nat) (fs' : FS)
    (h : create_checksum_or_skip_file H cfg fs f = .ok (r, fs'))
    (hnf : r.2.1 ≠ CreationResult.FAILED) :
    osPathExists fs' (outFile cfg f) = true := by
  unfold create_checksum_or_skip_file at h
  by_cases h1 : osPathExists fs (outFile cfg f) = true
  · simp [h1] at h
    rw [← h.2]
    exact h1
  · simp [h1] at h
    cases hread : fs.read f with
    | none =>
      rw [hread] at h
      simp at h
      exact absurd (by rw [← h.1]) hnf
    | some content =>
      rw [hread] at h
      simp only at h
      by_cases h2 : outFile cfg f ∈ fs.unopenable
      · simp [h2] at h
        exact absurd (by rw [← h.1]) hnf
      · simp only [if_neg h2] at h
        cases hm : cfg.manifest_file with
        | none =>
          rw [hm] at h
          simp at h
          rw [← h.2, osPathExists_write]
          simp
        | some m =>
          rw [hm] at h
          by_cases h3 : m ∈ (fs.write (outFile cfg f)
              (encodeStr (H cfg.algorithm content ++ " */" ++ basenameStr f ++ "\n"))).unopenable
          · simp [h3] at h
          · simp [h3] at h
            rw [← h.2, osPathExists_append, osPathExists_write]
            simp

theorem create_run_mono (H : HashFn) (cfg : CreateCfg) :
    ∀ (files : List FPath) (fs fs1 : FS)
      (results : List (String × CreationResult × Option Nat)),
      create_run H cfg fs files = .ok (results, fs1) →
      ∀ p, osPathExists fs p = true → osPathExists fs1 p = true := by
  intro files
  induction files with
  | nil =>
    intro fs fs1 results h p hp
    simp [create_run] at h
    rw [← h.2]
    exact hp
  | cons g rest ih =>
    intro fs fs1 results h p hp
    simp only [create_run] at h
    cases hstep : create_checksum_or_skip_file H cfg fs g with
    | error e => rw [hstep] at h; simp at h
    | ok rf =>
      obtain ⟨r, fs'⟩ := rf
      rw [hstep] at h
      dsimp only at h
      cases hrun2 : create_run H cfg fs' rest with
      | error e => rw [hrun2] at h; simp at h
      | ok rsf =>
        obtain ⟨rs, fs2⟩ := rsf
        rw [hrun2] at h
        simp at h
        rw [← h.2]
        exact ih fs' fs2 rs hrun2 p (create_step_mono H cfg fs g r fs' hstep p hp)

theorem create_run_creates (H : HashFn) (cfg : CreateCfg) :
    ∀ (files : List FPath) (fs fs1 : FS)
      (results : List (String × CreationResult × Option Nat)),
      create_run H cfg fs files = .ok (results, fs1) →
      (∀ r ∈ results, r.2.1 ≠ CreationResult.FAILED) →
      ∀ f ∈ files, osPathExists fs1 (outFile cfg f) = true := by
  intro files
  induction files with
  | nil =>
    intro fs fs1 results h hnf f hf
    exact absurd hf (List.not_mem_nil f)
  | cons g rest ih =>
    intro fs fs1 results h hnf f hf
    simp only [create_run] at h
    cases hstep : create_checksum_or_skip_file H cfg fs g with
    | error e => rw [hstep] at h; simp at h
    | ok rf =>
      obtain ⟨r, fs'⟩ := rf
      rw [hstep] at h
      dsimp only at h
      cases hrun2 : create_run H cfg fs' rest with
      | error e => rw [hrun2] at h; simp at h
      | ok rsf =>
        obtain ⟨rs, fs2⟩ := rsf
        rw [hrun2] at h
        simp at h
        obtain ⟨hres, hfs⟩ := h
        rcases List.mem_cons.mp hf with rfl | hf'
        · have hr : r.2.1 ≠ CreationResult.FAILED := by
            apply hnf
            rw [← hres]
            exact List.mem_cons_self r rs
          have hcre := create_step_creates H cfg fs f r fs' hstep hr
          rw [← hfs]
          exact create_run_mono H cfg rest fs' fs2 rs hrun2 _ hcre
        · rw [← hfs]
          apply ih fs' fs2 rs hrun2 _ f hf'
          intro q hq
          apply hnf
          rw [← hres]
          exact List.mem_cons_of_mem r hq

theorem create_run_all_skip (H : HashFn) (cfg : CreateCfg) (fs : FS) :
    ∀ (files : List FPath),
      (∀ f ∈ files, osPathExists fs (outFile cfg f) = true) →
      create_run H cfg fs files =
        .ok (files.map (fun f => (f, CreationResult.SKIPPED, none)), fs) := by
  intro files
  induction files with
  | nil => intro _; rfl
  | cons g rest ih =>
    intro hex
    simp only [create_run, create_step_skip H cfg fs g (hex g (by simp)),
      ih (fun f hf => hex f (by simp [hf])), List.map]

/-! ### Claim C6 -/

/-- Claim C6: if a Create run over `files` completes (no escaping
exception) with no FAILED outcome, then a second Create run with the same
configuration over the unchanged tree classifies every file SKIPPED (its
sidecar now exists), changes nothing, and produces zero ADDED outcomes. -/
theorem claim_C6 (H : HashFn) (cfg : CreateCfg) (fs fs1 : FS)
    (files : List FPath)
    (results : List (String × CreationResult × Option Nat))
    (hrun : create_run H cfg fs files = .ok (results, fs1))
    (hnf : ∀ r ∈ results, r.2.1 ≠ CreationResult.FAILED) :
    create_run H cfg fs1 files =
      .ok (files.map (fun f => (f, CreationResult.SKIPPED, none)), fs1)
    ∧ (files.map (fun f => (f, CreationResult.SKIPPED, (none : Option Nat)))).countP
        (fun r => decide (r.2.1 = CreationResult.ADDED)) = 0 := by
  constructor
  · exact create_run_all_skip H cfg fs1 files
      (create_run_creates H cfg files fs fs1 results hrun hnf)
  · rw [List.countP_eq_zero]
    intro a ha
    rw [List.mem_map] at ha
    obtain ⟨f, _, rfl⟩ := ha
    simp

def cfgC6 : CreateCfg := ⟨"p/", "cs", none, "sha256", false⟩

def fsC6 : FS := ⟨[("p/a", [5]), ("cs/a.sha256", encodeStr "z */a\n")], []⟩

theorem claim_C6_witness :
    create_run demoHash cfgC6 fsC6 ["p/a"] =
      .ok ([("p/a", CreationResult.SKIPPED, none)], fsC6)
    ∧ ([("p/a", CreationResult.SKIPPED, (none : Option Nat))]).countP
        (fun r => decide (r.2.1 = CreationResult.ADDED)) = 0 := by
  have h := claim_C6 demoHash cfgC6 fsC6 fsC6 ["p/a"]
    [("p/a", CreationResult.SKIPPED, none)] (by rfl)
    (by intro r hr; simp at hr; rw [hr]; decide)
  exact ⟨h.1, h.2⟩
